import Mathlib

/-!
Verification of the Zotero collection-synchronization core and the
user-preferences default layer of the RStudio repository.

The data model (`ZoteroCollectionSpec`, `ZoteroCollection`, the collection
source record) is embedded from `src/cpp/session/modules/zotero/ZoteroCollections.hpp`.
The orchestrator bodies (`getLibrary` / `getCollections`) live in a `.cpp`
file that is not part of the provided sources, so they are modelled from the
specification (each such definition says so in its doc comment).
Callback-style completion is embedded functionally: a collection source is a
function returning the single handler invocation it performs, and the
orchestrator entry points return the list of handler invocations they make.
-/

set_option autoImplicit false

namespace Zotero

/-- Modelled from the spec: `kNoVersion` is declared `extern const int` in the
header; its value is defined outside the provided sources.  The spec describes
it as "a reserved sentinel, e.g. -1" meaning "the caller has no cached copy". -/
def kNoVersion : Int := -1

/-- Embeds `struct ZoteroCollectionSpec` (name plus version marker). -/
structure ZoteroCollectionSpec where
  name : String
  version : Int
deriving DecidableEq

/-- Embeds the default-argument constructor `ZoteroCollectionSpec(name, version = kNoVersion)`
applied with a name only. -/
def ZoteroCollectionSpec.ofName (n : String) : ZoteroCollectionSpec :=
  ⟨n, kNoVersion⟩

/-- Embeds the default-argument constructor `ZoteroCollectionSpec()` applied
with no arguments: name defaults to `""`, version to `kNoVersion`. -/
def ZoteroCollectionSpec.defaultSpec : ZoteroCollectionSpec :=
  ⟨"", kNoVersion⟩

/-- Embeds `ZoteroCollectionSpec::empty()`, which returns `name.empty()`. -/
def ZoteroCollectionSpec.empty (s : ZoteroCollectionSpec) : Bool :=
  s.name.isEmpty

/-- The bibliographic item records carried by a collection are opaque
structured data (`core::json::Array` in the header); their schema is owned by
the backend, so they are embedded as an opaque record type. -/
structure ItemRecord where
  fields : List (String × String)
deriving DecidableEq

/-- Embeds `struct ZoteroCollection : ZoteroCollectionSpec` (spec plus items). -/
structure ZoteroCollection where
  name : String
  version : Int
  items : List ItemRecord
deriving DecidableEq

/-- Embeds `ZoteroCollection()`: delegates to `ZoteroCollectionSpec("", kNoVersion)`,
items default-constructed to the empty array. -/
def ZoteroCollection.defaultCollection : ZoteroCollection :=
  ⟨"", kNoVersion, []⟩

/-- Embeds `ZoteroCollection(const std::string& colName)`: delegates to
`ZoteroCollectionSpec(colName, kNoVersion)`, items empty. -/
def ZoteroCollection.ofName (n : String) : ZoteroCollection :=
  ⟨n, kNoVersion, []⟩

/-- Embeds `ZoteroCollection(const ZoteroCollectionSpec& spec)`: delegates to
`ZoteroCollectionSpec(spec.name, spec.version)`, items empty. -/
def ZoteroCollection.ofSpec (s : ZoteroCollectionSpec) : ZoteroCollection :=
  ⟨s.name, s.version, []⟩

/-- Embeds `core::Error`: either success (the falsy default error) or a
failure carrying a message. -/
inductive Error where
  | success
  | failure (msg : String)
deriving DecidableEq

/-- One invocation of a `ZoteroCollectionsHandler`: the
`(core::Error, ZoteroCollections, std::string)` argument triple. -/
structure HandlerCall where
  error : Error
  collections : List ZoteroCollection
  warning : String
deriving DecidableEq

/-- Embeds `struct ZoteroCollectionSource`: the two backend capabilities.
Each capability is modelled as a function from its inputs to the single
handler invocation the backend performs (the spec requires the backend to
invoke its handler exactly once). -/
structure ZoteroCollectionSource where
  getLibrary : String → ZoteroCollectionSpec → HandlerCall
  getCollections : String → List String → List ZoteroCollectionSpec → HandlerCall

/-- Modelled from the spec: the cache spec actually dispatched by the
orchestrator `getLibrary` (step 1 of §4.2) — if `useCache` is false the
version is rewritten to `kNoVersion` before dispatch. -/
def libraryDispatchSpec (cacheSpec : ZoteroCollectionSpec) (useCache : Bool) :
    ZoteroCollectionSpec :=
  if useCache then cacheSpec else ⟨cacheSpec.name, kNoVersion⟩

/-- Modelled from the spec: how the orchestrator `getLibrary` turns the
source response into the handler invocation — success responses are passed
through unmodified, a failure yields `handler(error, emptyCollections, "")`. -/
def libraryRespond (resp : HandlerCall) : HandlerCall :=
  if resp.error = Error.success then resp else ⟨resp.error, [], ""⟩

/-- Modelled from the spec: the orchestrator entry point
`getLibrary(cacheSpec, useCache, handler)` whose body is not among the
provided sources.  The configured source and its library identifier are
explicit parameters; the returned list holds the handler invocations made. -/
def getLibrary (src : ZoteroCollectionSource) (cfg : String)
    (cacheSpec : ZoteroCollectionSpec) (useCache : Bool) : List HandlerCall :=
  [libraryRespond (src.getLibrary cfg (libraryDispatchSpec cacheSpec useCache))]

/-- Modelled from the spec: order-preserving deduplication of the requested
collection names (first occurrence kept), with the names already emitted as
the accumulator. -/
def dedupNamesAux (seen : List String) : List String → List String
  | [] => []
  | n :: rest =>
      if n ∈ seen then dedupNamesAux seen rest
      else n :: dedupNamesAux (n :: seen) rest

/-- Modelled from the spec: `getCollections` step 2 — deduplicate the
requested names by name, insertion order preserved. -/
def dedupNames (names : List String) : List String :=
  dedupNamesAux [] names

/-- Modelled from the spec: `getCollections` step 1 — if `useCache` is false,
all incoming cache specs are cleared before dispatch. -/
def collectionsDispatchSpecs (cacheSpecs : List ZoteroCollectionSpec)
    (useCache : Bool) : List ZoteroCollectionSpec :=
  if useCache then cacheSpecs else []

/-- Modelled from the spec: the effective cache spec for a requested name —
a name with no corresponding entry in the cache specs is treated as
`kNoVersion`. -/
def resolveSpec (cacheSpecs : List ZoteroCollectionSpec) (n : String) :
    ZoteroCollectionSpec :=
  match cacheSpecs.find? (fun s => s.name == n) with
  | some s => s
  | none => ⟨n, kNoVersion⟩

/-- Modelled from the spec: `getCollections` step 4 completeness check —
a successful result set must contain exactly one Collection per requested
name and nothing else. -/
def collectionsComplete (requested : List String)
    (result : List ZoteroCollection) : Bool :=
  decide ((∀ n ∈ requested, (result.filter (fun c => decide (c.name = n))).length = 1) ∧
    ∀ c ∈ result, c.name ∈ requested)

/-- Modelled from the spec: §7 version-regression contract violation — a
returned Collection whose version is below the dispatched cache spec
version for the same name. -/
def versionRegressed (specs : List ZoteroCollectionSpec)
    (result : List ZoteroCollection) : Bool :=
  decide (∃ c ∈ result, ∃ s ∈ specs, s.name = c.name ∧ c.version < s.version)

/-- Modelled from the spec: how the orchestrator `getCollections` turns the
source response into the handler invocation — failures propagate with an
empty result set, contract violations (missing requested name, version
regression) surface as an error for the whole call, and a valid success
response is passed through unmodified. -/
def collectionsRespond (requested : List String)
    (specs : List ZoteroCollectionSpec) (resp : HandlerCall) : HandlerCall :=
  if resp.error ≠ Error.success then ⟨resp.error, [], ""⟩
  else if ¬ collectionsComplete requested resp.collections then
    ⟨Error.failure "collection missing from source result", [], ""⟩
  else if versionRegressed specs resp.collections then
    ⟨Error.failure "collection version regression", [], ""⟩
  else resp

/-- Modelled from the spec: the orchestrator entry point
`getCollections(collections, cacheSpecs, useCache, handler)` whose body is
not among the provided sources.  Steps: clear cache specs when `useCache` is
false, deduplicate the names, dispatch to the configured source, validate
and forward the response. -/
def getCollections (src : ZoteroCollectionSource) (cfg : String)
    (names : List String) (cacheSpecs : List ZoteroCollectionSpec)
    (useCache : Bool) : List HandlerCall :=
  let deduped := dedupNames names
  let specs := collectionsDispatchSpecs cacheSpecs useCache
  [collectionsRespond deduped specs (src.getCollections cfg deduped specs)]

end Zotero

namespace Prefs

/-- Embeds `FilePath::complete`: resolving a relative child path against a
base directory. -/
def completePath (base child : String) : String :=
  base ++ "/" ++ child

/-- The ambient program state read by the preferences default layer: the R
resources path from the session options, the user-prefs schema file name
(an external constant), and the behaviour of the external helper
`loadPrefsFromSchema` (declared in a header outside the provided sources). -/
structure PrefsEnv where
  rResourcesPath : String
  kUserPrefsSchemaFile : String
  loadPrefsFromSchema : String → Zotero.Error

/-- Embeds `UserPrefsDefaultLayer::readPrefs`: loads the schema-validated
defaults from `options().rResourcesPath().complete("schema").complete(kUserPrefsSchemaFile)`. -/
def UserPrefsDefaultLayer.readPrefs (env : PrefsEnv) : Zotero.Error :=
  env.loadPrefsFromSchema
    (completePath (completePath env.rResourcesPath "schema") env.kUserPrefsSchemaFile)

/-- Embeds `UserPrefsDefaultLayer::validatePrefs`: returns `Success()`
unconditionally — defaults ship in the box and are validated at build time. -/
def UserPrefsDefaultLayer.validatePrefs (_env : PrefsEnv) : Zotero.Error :=
  Zotero.Error.success

end Prefs

namespace Zotero

/-- A backend that reports every requested collection freshly fetched at a
fixed version (used to exercise the orchestrator on concrete inputs). -/
def freshSource (v : Int) : ZoteroCollectionSource :=
  ⟨fun _ s => ⟨Error.success, [⟨s.name, v, []⟩], ""⟩,
   fun _ names _ => ⟨Error.success, names.map (fun n => ⟨n, v, []⟩), ""⟩⟩

/-- A backend whose fetches always fail. -/
def failingSource : ZoteroCollectionSource :=
  ⟨fun _ _ => ⟨Error.failure "backend unavailable", [], ""⟩,
   fun _ _ _ => ⟨Error.failure "backend unavailable", [], ""⟩⟩

/-- A backend that succeeds but returns no collections at all. -/
def emptySource : ZoteroCollectionSource :=
  ⟨fun _ _ => ⟨Error.success, [], ""⟩,
   fun _ _ _ => ⟨Error.success, [], ""⟩⟩

theorem mem_dedupNamesAux (l : List String) :
    ∀ (seen : List String) (n : String),
      n ∈ dedupNamesAux seen l ↔ n ∈ l ∧ n ∉ seen := by
  induction l with
  | nil => intro seen n; simp [dedupNamesAux]
  | cons m rest ih =>
      intro seen n
      unfold dedupNamesAux
      by_cases hm : m ∈ seen
      · rw [if_pos hm, ih]
        constructor
        · exact fun ⟨h1, h2⟩ => ⟨List.mem_cons_of_mem m h1, h2⟩
        · rintro ⟨h1, h2⟩
          rcases List.mem_cons.mp h1 with h | h
          · exact absurd (h ▸ hm) h2
          · exact ⟨h, h2⟩
      · rw [if_neg hm]
        constructor
        · intro h
          rcases List.mem_cons.mp h with heq | hmem
          · subst heq
            exact ⟨List.mem_cons_self n rest, hm⟩
          · obtain ⟨h1, h2⟩ := (ih (m :: seen) n).mp hmem
            exact ⟨List.mem_cons_of_mem m h1,
              fun hn => h2 (List.mem_cons_of_mem m hn)⟩
        · rintro ⟨h1, h2⟩
          rcases List.mem_cons.mp h1 with heq | hmem
          · subst heq
            exact List.mem_cons_self n (dedupNamesAux (n :: seen) rest)
          · by_cases hnm : n = m
            · subst hnm
              exact List.mem_cons_self n (dedupNamesAux (n :: seen) rest)
            · refine List.mem_cons_of_mem m ((ih (m :: seen) n).mpr ⟨hmem, ?_⟩)
              intro hn
              rcases List.mem_cons.mp hn with h3 | h3
              · exact hnm h3
              · exact h2 h3

theorem dedupNamesAux_sublist (l : List String) :
    ∀ seen : List String, (dedupNamesAux seen l).Sublist l := by
  induction l with
  | nil => intro seen; simp [dedupNamesAux]
  | cons m rest ih =>
      intro seen
      unfold dedupNamesAux
      by_cases hm : m ∈ seen
      · rw [if_pos hm]
        exact (ih seen).cons m
      · rw [if_neg hm]
        exact (ih (m :: seen)).cons₂ m

theorem nodup_dedupNamesAux (l : List String) :
    ∀ seen : List String, (dedupNamesAux seen l).Nodup := by
  induction l with
  | nil => intro seen; simp [dedupNamesAux]
  | cons m rest ih =>
      intro seen
      unfold dedupNamesAux
      by_cases hm : m ∈ seen
      · rw [if_pos hm]; exact ih seen
      · rw [if_neg hm]
        refine List.nodup_cons.mpr ⟨fun hmem => ?_, ih (m :: seen)⟩
        exact ((mem_dedupNamesAux rest (m :: seen) m).mp hmem).2 (List.mem_cons_self m seen)

theorem dedupNamesAux_eq_self (l : List String) :
    ∀ seen : List String, l.Nodup → (∀ n ∈ l, n ∉ seen) →
      dedupNamesAux seen l = l := by
  induction l with
  | nil => intro seen _ _; rfl
  | cons m rest ih =>
      intro seen hnd hs
      unfold dedupNamesAux
      rw [if_neg (hs m (List.mem_cons_self m rest))]
      congr 1
      refine ih (m :: seen) (List.nodup_cons.mp hnd).2 (fun n hn => ?_)
      intro hmem
      rcases List.mem_cons.mp hmem with h | h
      · exact (List.nodup_cons.mp hnd).1 (h ▸ hn)
      · exact hs n (List.mem_cons_of_mem m hn) h

theorem dedupNames_eq_self (names : List String) (hnd : names.Nodup) :
    dedupNames names = names :=
  dedupNamesAux_eq_self names [] hnd (fun n _ => List.not_mem_nil n)

/-- C1: with `useCache = false`, `getLibrary` dispatches to the configured
source with the cache spec version rewritten to `kNoVersion` and the name
passed through unchanged. -/
theorem getLibrary_useCache_false_dispatch
    (src : ZoteroCollectionSource) (cfg : String)
    (cacheSpec : ZoteroCollectionSpec) :
    libraryDispatchSpec cacheSpec false = ⟨cacheSpec.name, kNoVersion⟩ ∧
    getLibrary src cfg cacheSpec false =
      [libraryRespond (src.getLibrary cfg ⟨cacheSpec.name, kNoVersion⟩)] :=
  ⟨rfl, rfl⟩

/-- C3: both orchestrator entry points invoke the completion handler exactly
once — never zero times and never more than once. -/
theorem handler_invoked_exactly_once
    (src : ZoteroCollectionSource) (cfg : String)
    (cacheSpec : ZoteroCollectionSpec) (names : List String)
    (cacheSpecs : List ZoteroCollectionSpec) (useCache : Bool) :
    (getLibrary src cfg cacheSpec useCache).length = 1 ∧
    (getCollections src cfg names cacheSpecs useCache).length = 1 :=
  ⟨rfl, rfl⟩

/-- C4: when the source fails, `getLibrary` invokes the handler exactly once
with the non-success error, an empty collection list and an empty warning. -/
theorem getLibrary_failure_empty_result
    (src : ZoteroCollectionSource) (cfg : String)
    (cacheSpec : ZoteroCollectionSpec) (useCache : Bool)
    (hfail : (src.getLibrary cfg (libraryDispatchSpec cacheSpec useCache)).error ≠
      Error.success) :
    getLibrary src cfg cacheSpec useCache =
      [⟨(src.getLibrary cfg (libraryDispatchSpec cacheSpec useCache)).error, [], ""⟩] := by
  unfold getLibrary libraryRespond
  rw [if_neg hfail]

/-- Witness for C4 at a concrete failing backend. -/
theorem getLibrary_failure_empty_result_witness :
    (failingSource.getLibrary ""
        (libraryDispatchSpec ⟨"My Library", kNoVersion⟩ false)).error ≠ Error.success ∧
    getLibrary failingSource "" ⟨"My Library", kNoVersion⟩ false =
      [⟨(failingSource.getLibrary ""
          (libraryDispatchSpec ⟨"My Library", kNoVersion⟩ false)).error, [], ""⟩] :=
  ⟨by decide,
   getLibrary_failure_empty_result failingSource "" ⟨"My Library", kNoVersion⟩ false
     (by decide)⟩

/-- C7: a collection spec is empty exactly when its name is the empty string,
and an empty-named spec is never matched by name-equality against any real
(non-empty-named) collection. -/
theorem empty_spec_iff_name_empty
    (s : ZoteroCollectionSpec) (c : ZoteroCollection) :
    (s.empty = true ↔ s.name = "") ∧
    (s.empty = true → c.name ≠ "" → s.name ≠ c.name) := by
  have hiff : s.empty = true ↔ s.name = "" := by
    simp [ZoteroCollectionSpec.empty, String.isEmpty_iff]
  refine ⟨hiff, fun hs hc heq => ?_⟩
  rw [hiff.mp hs] at heq
  exact hc heq.symm

/-- Witness for C7 at a concrete empty spec and a concrete real collection. -/
theorem empty_spec_iff_name_empty_witness :
    (⟨"", 5⟩ : ZoteroCollectionSpec).empty = true ∧
    (ZoteroCollection.ofName "Refs").name ≠ "" ∧
    (⟨"", 5⟩ : ZoteroCollectionSpec).name ≠ (ZoteroCollection.ofName "Refs").name :=
  ⟨by decide, by decide,
   (empty_spec_iff_name_empty ⟨"", 5⟩ (ZoteroCollection.ofName "Refs")).2
     (by decide) (by decide)⟩

/-- C9: building a collection from a spec preserves name and version exactly
and initializes items to the empty array. -/
theorem collection_ofSpec_preserves (s : ZoteroCollectionSpec) :
    (ZoteroCollection.ofSpec s).name = s.name ∧
    (ZoteroCollection.ofSpec s).version = s.version ∧
    (ZoteroCollection.ofSpec s).items = [] :=
  ⟨rfl, rfl, rfl⟩

/-- C10: specs constructed without an explicit version, default-constructed
collections and name-only collections all carry `kNoVersion`, and the
default-constructed spec has the empty name. -/
theorem default_version_kNoVersion (n : String) :
    (ZoteroCollectionSpec.ofName n).version = kNoVersion ∧
    ZoteroCollection.defaultCollection.version = kNoVersion ∧
    (ZoteroCollection.ofName n).version = kNoVersion ∧
    ZoteroCollectionSpec.defaultSpec.name = "" ∧
    ZoteroCollectionSpec.defaultSpec.version = kNoVersion :=
  ⟨rfl, rfl, rfl, rfl, rfl⟩

end Zotero

namespace Prefs

/-- C8: `validatePrefs` of the default layer returns success for every
program state, while `readPrefs` loads the defaults from the resource path
composed of the R resources path, `schema` and the user-prefs schema file
name. -/
theorem validatePrefs_always_success_readPrefs_path (env : PrefsEnv) :
    UserPrefsDefaultLayer.validatePrefs env = Zotero.Error.success ∧
    UserPrefsDefaultLayer.readPrefs env =
      env.loadPrefsFromSchema
        (completePath (completePath env.rResourcesPath "schema")
          env.kUserPrefsSchemaFile) :=
  ⟨rfl, rfl⟩

end Prefs

namespace Zotero

theorem collectionsRespond_success (requested : List String)
    (specs : List ZoteroCollectionSpec) (resp : HandlerCall)
    (hsucc : (collectionsRespond requested specs resp).error = Error.success) :
    collectionsRespond requested specs resp = resp ∧
    resp.error = Error.success ∧
    collectionsComplete requested resp.collections = true ∧
    versionRegressed specs resp.collections = false := by
  unfold collectionsRespond at hsucc ⊢
  by_cases h1 : resp.error ≠ Error.success
  · rw [if_pos h1] at hsucc
    exact absurd hsucc h1
  · rw [if_neg h1] at hsucc ⊢
    by_cases h2 : ¬ collectionsComplete requested resp.collections = true
    · rw [if_pos h2] at hsucc
      simp at hsucc
    · rw [if_neg h2] at hsucc ⊢
      by_cases h3 : versionRegressed specs resp.collections = true
      · rw [if_pos h3] at hsucc
        simp at hsucc
      · rw [if_neg h3] at hsucc ⊢
        refine ⟨rfl, not_not.mp h1, not_not.mp h2, ?_⟩
        revert h3
        cases versionRegressed specs resp.collections <;> simp

theorem collectionsRespond_error_of_incomplete (requested : List String)
    (specs : List ZoteroCollectionSpec) (resp : HandlerCall)
    (hinc : collectionsComplete requested resp.collections = false) :
    (collectionsRespond requested specs resp).error ≠ Error.success := by
  unfold collectionsRespond
  by_cases h1 : resp.error ≠ Error.success
  · rw [if_pos h1]
    exact h1
  · rw [if_neg h1]
    rw [if_pos (by simp [hinc])]
    simp

/-- C2: for non-empty duplicate-free requests, a successful `getCollections`
delivers exactly the requested name set (no extra names, no missing names),
and a requested name absent from the source result is surfaced as an error
for the whole call rather than silently dropped. -/
theorem getCollections_success_names_exact
    (src : ZoteroCollectionSource) (cfg : String) (names : List String)
    (cacheSpecs : List ZoteroCollectionSpec) (useCache : Bool)
    (_hne : names ≠ []) (hnd : names.Nodup) :
    (∀ h ∈ getCollections src cfg names cacheSpecs useCache,
      h.error = Error.success →
        (∀ n ∈ names, ∃ c ∈ h.collections, c.name = n) ∧
        (∀ c ∈ h.collections, c.name ∈ names)) ∧
    (∀ n ∈ names,
      (∀ c ∈ (src.getCollections cfg (dedupNames names)
          (collectionsDispatchSpecs cacheSpecs useCache)).collections, c.name ≠ n) →
      ∀ h ∈ getCollections src cfg names cacheSpecs useCache,
        h.error ≠ Error.success) := by
  have hdd : dedupNames names = names := dedupNames_eq_self names hnd
  constructor
  · intro h hmem hsucc
    simp only [getCollections, hdd, List.mem_singleton] at hmem
    subst hmem
    obtain ⟨hEq, _, hcomp, _⟩ := collectionsRespond_success _ _ _ hsucc
    rw [hEq]
    rw [collectionsComplete, decide_eq_true_eq] at hcomp
    obtain ⟨hone, hsubset⟩ := hcomp
    constructor
    · intro n hn
      have hlen := hone n hn
      have hpos : 0 < ((src.getCollections cfg names
          (collectionsDispatchSpecs cacheSpecs useCache)).collections.filter
            (fun c => decide (c.name = n))).length := by omega
      obtain ⟨c, hc⟩ := List.exists_mem_of_length_pos hpos
      have hcf := List.mem_filter.mp hc
      exact ⟨c, hcf.1, of_decide_eq_true hcf.2⟩
    · exact hsubset
  · intro n hn habsent h hmem
    rw [hdd] at habsent
    simp only [getCollections, hdd, List.mem_singleton] at hmem
    subst hmem
    apply collectionsRespond_error_of_incomplete
    rw [collectionsComplete, decide_eq_false_iff_not]
    rintro ⟨hone, -⟩
    have hlen := hone n hn
    have hfil : ((src.getCollections cfg names
        (collectionsDispatchSpecs cacheSpecs useCache)).collections.filter
          (fun c => decide (c.name = n))) = [] :=
      List.filter_eq_nil_iff.mpr (fun c hc => by simpa using habsent c hc)
    rw [hfil] at hlen
    simp at hlen

/-- Witness for C2: against a backend that returns no collections, a
requested name missing from the source result makes the whole call fail. -/
theorem getCollections_success_names_exact_witness :
    (["Refs", "Drafts"] : List String) ≠ [] ∧
    (["Refs", "Drafts"] : List String).Nodup ∧
    (⟨Error.failure "collection missing from source result", [], ""⟩ :
      HandlerCall).error ≠ Error.success :=
  ⟨by decide, by decide,
   (getCollections_success_names_exact emptySource "" ["Refs", "Drafts"] [] true
      (by decide) (by decide)).2 "Refs" (by decide) (by decide)
      ⟨Error.failure "collection missing from source result", [], ""⟩ (by decide)⟩

/-- C5: `getCollections` dispatches the name list deduplicated with insertion
order preserved; a name with no cache entry resolves to `kNoVersion`, and
with `useCache = false` every name resolves as uncached. -/
theorem getCollections_dedup_and_cache_dispatch
    (src : ZoteroCollectionSource) (cfg : String) (names : List String)
    (cacheSpecs : List ZoteroCollectionSpec) (useCache : Bool) :
    getCollections src cfg names cacheSpecs useCache =
      [collectionsRespond (dedupNames names)
        (collectionsDispatchSpecs cacheSpecs useCache)
        (src.getCollections cfg (dedupNames names)
          (collectionsDispatchSpecs cacheSpecs useCache))] ∧
    (dedupNames names).Nodup ∧
    (dedupNames names).Sublist names ∧
    (∀ n, n ∈ dedupNames names ↔ n ∈ names) ∧
    (∀ n, (∀ s ∈ cacheSpecs, s.name ≠ n) →
      (resolveSpec (collectionsDispatchSpecs cacheSpecs useCache) n).version =
        kNoVersion) ∧
    (useCache = false →
      ∀ n, (resolveSpec (collectionsDispatchSpecs cacheSpecs useCache) n).version =
        kNoVersion) := by
  refine ⟨rfl, nodup_dedupNamesAux names [], dedupNamesAux_sublist names [],
    fun n => ?_, fun n hn => ?_, fun hu n => ?_⟩
  · rw [dedupNames, mem_dedupNamesAux]
    simp
  · have hsub : ∀ s, s ∈ collectionsDispatchSpecs cacheSpecs useCache →
        s ∈ cacheSpecs := by
      intro s hs
      unfold collectionsDispatchSpecs at hs
      by_cases hu : useCache = true
      · rwa [if_pos hu] at hs
      · rw [if_neg hu] at hs
        exact absurd hs (List.not_mem_nil s)
    have hfind : List.find? (fun s => s.name == n)
        (collectionsDispatchSpecs cacheSpecs useCache) = none := by
      rw [List.find?_eq_none]
      intro s hs
      simpa using hn s (hsub s hs)
    rw [resolveSpec, hfind]
  · subst hu
    rfl

/-- Witness for C5: a duplicated request is deduplicated in order, a cached
name dispatched uncached when the cache is bypassed, and an uncovered name
resolves to `kNoVersion`. -/
theorem getCollections_dedup_and_cache_dispatch_witness :
    dedupNames ["Refs", "Refs", "Drafts"] = ["Refs", "Drafts"] ∧
    (∀ s ∈ [(⟨"Refs", 3⟩ : ZoteroCollectionSpec)], s.name ≠ "Drafts") ∧
    (resolveSpec (collectionsDispatchSpecs [⟨"Refs", 3⟩] true) "Drafts").version =
      kNoVersion ∧
    (resolveSpec (collectionsDispatchSpecs [⟨"Refs", 3⟩] false) "Refs").version =
      kNoVersion :=
  ⟨by decide, by decide,
   (getCollections_dedup_and_cache_dispatch (freshSource 1) ""
      ["Refs", "Refs", "Drafts"] [⟨"Refs", 3⟩] true).2.2.2.2.1 "Drafts" (by decide),
   (getCollections_dedup_and_cache_dispatch (freshSource 1) ""
      ["Refs", "Refs", "Drafts"] [⟨"Refs", 3⟩] false).2.2.2.2.2 rfl "Refs"⟩

/-- Counterexample for C6 as stated: `getLibrary` forwards the source result
unmodified without re-validating versions, so a backend that regresses a
version reaches the caller on a successful call — the caller holds version 3
of "My Library" and receives version 1. -/
theorem version_regression_getLibrary_counterexample :
    getLibrary (freshSource 1) "" ⟨"My Library", 3⟩ true =
      [⟨Error.success, [⟨"My Library", 1, []⟩], ""⟩] ∧
    ¬ ((3 : Int) ≤ 1) := by decide

/-- C6 amended: in `getCollections` with `useCache = true`, a successful call
never delivers a collection whose version is below the caller-supplied cache
spec for the same name (regression is surfaced as an error instead); the
guarantee is scoped to `getCollections`, since `getLibrary` forwards source
results unmodified. -/
theorem getCollections_version_monotone
    (src : ZoteroCollectionSource) (cfg : String) (names : List String)
    (cacheSpecs : List ZoteroCollectionSpec) (h : HandlerCall)
    (hmem : h ∈ getCollections src cfg names cacheSpecs true)
    (hsucc : h.error = Error.success)
    (c : ZoteroCollection) (hc : c ∈ h.collections)
    (s : ZoteroCollectionSpec) (hs : s ∈ cacheSpecs) (hname : s.name = c.name) :
    s.version ≤ c.version := by
  simp only [getCollections, List.mem_singleton] at hmem
  subst hmem
  obtain ⟨hEq, _, _, hreg⟩ := collectionsRespond_success _ _ _ hsucc
  rw [hEq] at hc
  rw [versionRegressed, decide_eq_false_iff_not] at hreg
  by_contra hlt
  push_neg at hlt
  apply hreg
  refine ⟨c, hc, s, ?_, hname, hlt⟩
  simpa [collectionsDispatchSpecs] using hs

/-- Witness for C6 amended at a concrete backend that advances the version
from 3 to 5. -/
theorem getCollections_version_monotone_witness :
    (⟨Error.success, [⟨"Refs", 5, []⟩], ""⟩ : HandlerCall) ∈
      getCollections (freshSource 5) "" ["Refs"] [⟨"Refs", 3⟩] true ∧
    (3 : Int) ≤ 5 :=
  ⟨by decide,
   getCollections_version_monotone (freshSource 5) "" ["Refs"] [⟨"Refs", 3⟩]
     ⟨Error.success, [⟨"Refs", 5, []⟩], ""⟩ (by decide) (by decide)
     ⟨"Refs", 5, []⟩ (by decide) ⟨"Refs", 3⟩ (by decide) (by decide)⟩

end Zotero
